import Mathlib

/-!
# Verification of the job-alert bot (`main.py`)

A shallow embedding, in Lean 4, of the pure core of the job-alert script:
the record extractor's contract inference and id derivation, the
eligibility filter `filter_by_region_and_contract`, the `load_seen`
persistence loader, the `send_telegram_message` result computation, and
one cycle of the orchestrator's collect/notify phases. Network and file
system effects are modelled as explicit inputs (responses, file states,
fetched batches); everything else is translated line by line from the
source.
-/

namespace JobBot

/-! ## Python string primitives

`str.lower`/`str.upper` are modelled on ASCII letters and the Latin-1
letter ranges (À–Þ / à–þ, excluding the multiplication and division
signs), which covers every character the script compares (the accented
French keywords such as "télétravail" and "Intérim"). `pyIn` models the
Python substring test `needle in hay`. -/

def charLower (c : Char) : Char :=
  if 65 ≤ c.toNat ∧ c.toNat ≤ 90 then Char.ofNat (c.toNat + 32)
  else if 192 ≤ c.toNat ∧ c.toNat ≤ 222 ∧ c.toNat ≠ 215 then Char.ofNat (c.toNat + 32)
  else c

def charUpper (c : Char) : Char :=
  if 97 ≤ c.toNat ∧ c.toNat ≤ 122 then Char.ofNat (c.toNat - 32)
  else if 224 ≤ c.toNat ∧ c.toNat ≤ 254 ∧ c.toNat ≠ 247 then Char.ofNat (c.toNat - 32)
  else c

def pyLower (s : String) : String := String.mk (s.toList.map charLower)

def pyUpper (s : String) : String := String.mk (s.toList.map charUpper)

/-- Python's `needle in hay` substring test. -/
def pyIn (needle hay : String) : Bool := decide (needle.toList <:+: hay.toList)

/-! ## Configuration constants (`main.py` lines 21–30) -/

def TITLES : List String :=
  ["opérateur de saisie", "opérateur saisie", "saisie de données", "saisie",
   "opérateur saisie", "data entry"]

def BRETAGNE_CITIES : List String :=
  ["Rennes", "Nantes", "Brest", "Saint-Brieuc", "Vannes", "Lorient", "Quimper", "Brest"]

def CONTRACT_KEYWORDS : List String := ["CDI", "CDD", "Intérim", "Interim", "Contrat"]

/-! ## Job records

`parse_indeed_search` produces dicts with keys
title/company/location/summary/link/contract/id; `contract` is `None` or
one of the `CONTRACT_KEYWORDS`, every other field is a string. -/

structure Job where
  title : String
  company : String
  location : String
  summary : String
  link : String
  contract : Option String
  id : String
deriving Repr, DecidableEq

/-! ## Record extraction (`parse_indeed_search`, lines 102–117)

HTML fetching and parsing are external; the embedding starts at the point
where the per-card fields (title, company, location, summary) and the
canonicalized link have been extracted, and models the construction of
the result record: contract inference by first-match over
`CONTRACT_KEYWORDS` on the upper-cased concatenated text, and the id
derived from the link. -/

/-- `contract = None; for kw in CONTRACT_KEYWORDS: if kw.upper() in whole_text: contract = kw; break` -/
def inferContract (title company loc summary : String) : Option String :=
  let whole_text := pyUpper (String.intercalate " " [title, company, loc, summary])
  CONTRACT_KEYWORDS.find? (fun kw => pyIn (pyUpper kw) whole_text)

/-! ### SHA-1 (`hashlib.sha1(...).hexdigest()`), over byte lists as `Nat` -/

/-- Truncation to a 32-bit word. -/
def w32 (x : Nat) : Nat := x % 4294967296

/-- Left rotation of a 32-bit word by `n` bits. -/
def rotl32 (n x : Nat) : Nat := w32 (x * 2 ^ n + x / 2 ^ (32 - n))

/-- SHA-1 padding: append `0x80`, zeros up to 56 mod 64 bytes, then the
original bit length as 8 big-endian bytes. -/
def sha1pad (msg : List Nat) : List Nat :=
  let ml := 8 * msg.length
  let zeros := (119 - msg.length % 64) % 64
  msg ++ [128] ++ List.replicate zeros 0 ++
    [ml / 2 ^ 56 % 256, ml / 2 ^ 48 % 256, ml / 2 ^ 40 % 256, ml / 2 ^ 32 % 256,
     ml / 2 ^ 24 % 256, ml / 2 ^ 16 % 256, ml / 2 ^ 8 % 256, ml % 256]

/-- Big-endian packing of bytes into 32-bit words, four at a time. -/
def toWords : List Nat → List Nat
  | b0 :: b1 :: b2 :: b3 :: rest => (((b0 * 256 + b1) * 256 + b2) * 256 + b3) :: toWords rest
  | _ => []

/-- One step of the message-schedule expansion: append
`rotl1 (w[n-3] xor w[n-8] xor w[n-14] xor w[n-16])`. -/
def expandStep (ws : List Nat) : List Nat :=
  let n := ws.length
  ws ++ [rotl32 1 ((ws.getD (n - 3) 0) ^^^ (ws.getD (n - 8) 0) ^^^
                   (ws.getD (n - 14) 0) ^^^ (ws.getD (n - 16) 0))]

def expandN : Nat → List Nat → List Nat
  | 0, ws => ws
  | k + 1, ws => expandN k (expandStep ws)

/-- The 80-word message schedule of one 16-word block. -/
def schedule (block : List Nat) : List Nat := expandN 64 block

/-- One of the 80 SHA-1 rounds, on state `(a, b, c, d, e)`. -/
def sha1Round (st : Nat × Nat × Nat × Nat × Nat) (iw : Nat × Nat) :
    Nat × Nat × Nat × Nat × Nat :=
  let (a, b, c, d, e) := st
  let (i, w) := iw
  let f :=
    if i < 20 then (b &&& c) ||| ((b ^^^ 4294967295) &&& d)
    else if i < 40 then b ^^^ c ^^^ d
    else if i < 60 then (b &&& c) ||| (b &&& d) ||| (c &&& d)
    else b ^^^ c ^^^ d
  let k :=
    if i < 20 then 1518500249
    else if i < 40 then 1859775393
    else if i < 60 then 2400959708
    else 3395469782
  (w32 (rotl32 5 a + f + e + k + w), a, rotl32 30 b, c, d)

/-- Process one 64-byte block, updating the five-word hash state. -/
def sha1Block (h : Nat × Nat × Nat × Nat × Nat) (block : List Nat) :
    Nat × Nat × Nat × Nat × Nat :=
  let (h0, h1, h2, h3, h4) := h
  let st := ((schedule (toWords block)).enum).foldl sha1Round (h0, h1, h2, h3, h4)
  (w32 (h0 + st.1), w32 (h1 + st.2.1), w32 (h2 + st.2.2.1),
   w32 (h3 + st.2.2.2.1), w32 (h4 + st.2.2.2.2))

def chunks64 (l : List Nat) : List (List Nat) :=
  if h : l = [] then []
  else
    have : (l.drop 64).length < l.length := by
      have hl : 0 < l.length := List.length_pos.mpr h
      simp only [List.length_drop]
      omega
    l.take 64 :: chunks64 (l.drop 64)
termination_by l.length

def hexDigit (n : Nat) : Char :=
  if n < 10 then Char.ofNat (48 + n) else Char.ofNat (87 + n)

/-- Lower-case hexadecimal rendering of one 32-bit word. -/
def toHex8 (w : Nat) : List Char :=
  [hexDigit (w / 2 ^ 28 % 16), hexDigit (w / 2 ^ 24 % 16), hexDigit (w / 2 ^ 20 % 16),
   hexDigit (w / 2 ^ 16 % 16), hexDigit (w / 2 ^ 12 % 16), hexDigit (w / 2 ^ 8 % 16),
   hexDigit (w / 2 ^ 4 % 16), hexDigit (w % 16)]

/-- `hashlib.sha1(bytes).hexdigest()`. -/
def sha1hex (msg : List Nat) : String :=
  let h := (chunks64 (sha1pad msg)).foldl sha1Block
    (1732584193, 4023233417, 2562383102, 271733878, 3285377520)
  String.mk (toHex8 h.1 ++ toHex8 h.2.1 ++ toHex8 h.2.2.1 ++ toHex8 h.2.2.2.1 ++
    toHex8 h.2.2.2.2)

/-- Lines 59–61: `hashlib.sha1(link.encode("utf-8")).hexdigest()`. -/
def get_job_id_from_link (link : String) : String :=
  sha1hex (link.toUTF8.toList.map (fun b => b.toNat))

/-- Lines 109–117: the record appended to `results` for one card, given the
extracted fields and the canonicalized link. -/
def mkJobRecord (title company loc summary link : String) : Job :=
  { title := title, company := company, location := loc, summary := summary,
    link := link, contract := inferContract title company loc summary,
    id := get_job_id_from_link link }

/-! ## Eligibility filter (`filter_by_region_and_contract`, lines 124–146) -/

/-- Line 129: `is_remote = "télétravail" in loc or "télétravail" in text or
"teletravail" in text or "remote" in text`, with `loc` the lower-cased
location and `text` the lower-cased `title + " " + summary`. -/
def isRemote (j : Job) : Bool :=
  let loc := pyLower j.location
  let text := pyLower (j.title ++ " " ++ j.summary)
  pyIn "télétravail" loc || pyIn "télétravail" text ||
    pyIn "teletravail" text || pyIn "remote" text

/-- Line 130: `in_region = any(city.lower() in loc or city.lower() in text for city in region_cities)`. -/
def inRegion (region_cities : List String) (j : Job) : Bool :=
  let loc := pyLower j.location
  let text := pyLower (j.title ++ " " ++ j.summary)
  region_cities.any (fun city => pyIn (pyLower city) loc || pyIn (pyLower city) text)

/-- Lines 131–134: the locality gate, `pass_ok`. -/
def passOk (region_cities : List String) (accept_remote : Bool) (j : Job) : Bool :=
  if accept_remote && isRemote j then true else inRegion region_cities j

/-- The summary fallback keywords of line 142: `("cdi","cdd","intérim","interim")`. -/
def SUMMARY_FALLBACK : List String := ["cdi", "cdd", "intérim", "interim"]

/-- Lines 137–144: the contract gate. `if j.get("contract"):` is Python
truthiness, so a `None` or empty-string contract skips the gate. -/
def contractOk (accept_contracts : Bool) (j : Job) : Bool :=
  if accept_contracts then
    match j.contract with
    | none => true
    | some c =>
      if c = "" then true
      else if !(CONTRACT_KEYWORDS.any fun kw => pyIn (pyUpper kw) (pyUpper c)) then
        SUMMARY_FALLBACK.any (fun kw => pyIn (pyLower kw) (pyLower j.summary))
      else true
  else true

/-- The whole per-record decision of the loop body: a record is appended to
`filtered` exactly when it passes the locality gate and the contract gate. -/
def jobPasses (region_cities : List String) (accept_contracts accept_remote : Bool)
    (j : Job) : Bool :=
  passOk region_cities accept_remote j && contractOk accept_contracts j

def filter_by_region_and_contract (jobs : List Job) (region_cities : List String)
    (accept_contracts accept_remote : Bool) : List Job :=
  jobs.filter (jobPasses region_cities accept_contracts accept_remote)

/-! ## Persistence loader (`load_seen`, lines 40–48)

The file system is an explicit input: the file is absent
(`os.path.exists` is false), unreadable (opening, `json.load`, or
building the set raises, caught by `except Exception`), or holds a list
of identifier strings. -/

inductive SeenFile where
  | absent
  | unreadable
  | content (ids : List String)
deriving Repr, DecidableEq

def load_seen : SeenFile → Finset String
  | .absent => ∅
  | .unreadable => ∅
  | .content ids => ids.toFinset

/-! ## Notifier result (`send_telegram_message`, lines 148–156)

The HTTP exchange is an explicit input: `none` models a transport
exception raised by `requests.post` (caught, logged, `return False`),
`some s` a response with `status_code == s` (`return r.status_code == 200`). -/

def send_telegram_message : Option Nat → Bool
  | some status => status == 200
  | none => false

/-! ## One orchestrator cycle (`main_loop`, lines 178–212)

Fetching is external, so one cycle takes as input the already-fetched
batches: `fetchedA`, the concatenation of `parse_indeed_search` results
over all title × city combinations of phase 1, and `fetchedB`, that of
the remote queries of phase 2 (processing the concatenation left to
right is the same as processing the per-combination batches in order).
Notification outcomes are an oracle `sendOk`. The cycle returns the
final `seen` list, the collected `all_new` list, and the trace of
mark-seen and notify events in program order. -/

inductive Event where
  | markSeen (id : String)
  | notifyAttempt (id : String) (ok : Bool)
deriving Repr, DecidableEq

def Event.isMark : Event → Bool
  | .markSeen _ => true
  | .notifyAttempt _ _ => false

/-- Lines 186–189: `for j in candidates: if j["id"] not in seen:
all_new.append(j); seen.add(j["id"])`. -/
def collectNew (seen : List String) (allNew : List Job) :
    List Job → List String × List Job × List Event
  | [] => (seen, allNew, [])
  | j :: rest =>
    if seen.contains j.id then collectNew seen allNew rest
    else
      let r := collectNew (j.id :: seen) (allNew ++ [j]) rest
      (r.1, r.2.1, Event.markSeen j.id :: r.2.2)

/-- Line 198: the phase-2 defense-in-depth re-check of remote markers on
`location + " " + summary`. -/
def remoteRecheck (j : Job) : Bool :=
  pyIn "télétravail" (pyLower (j.location ++ " " ++ j.summary)) ||
    pyIn "remote" (pyLower (j.location ++ " " ++ j.summary))

/-- Lines 196–201: phase-2 collection, gated by `remoteRecheck`. -/
def collectNewRemote (seen : List String) (allNew : List Job) :
    List Job → List String × List Job × List Event
  | [] => (seen, allNew, [])
  | j :: rest =>
    if remoteRecheck j then
      if seen.contains j.id then collectNewRemote seen allNew rest
      else
        let r := collectNewRemote (j.id :: seen) (allNew ++ [j]) rest
        (r.1, r.2.1, Event.markSeen j.id :: r.2.2)
    else collectNewRemote seen allNew rest

/-- Lines 207–211: every record of `all_new` is sent in order; the result of
each send is logged and has no effect on `seen` or on later sends. -/
def notifyAll (sendOk : Job → Bool) : List Job → List Event
  | [] => []
  | j :: rest => Event.notifyAttempt j.id (sendOk j) :: notifyAll sendOk rest

/-- One cycle: phase-1 filter and collect (`accept_remote=False`), phase-2
filter, re-check and collect (`accept_remote=True`), then notification of
everything collected. -/
def runCycle (seen : List String) (fetchedA fetchedB : List Job)
    (cities : List String) (sendOk : Job → Bool) :
    List String × List Job × List Event :=
  let candsA := filter_by_region_and_contract fetchedA cities true false
  let candsB := filter_by_region_and_contract fetchedB cities true true
  let ra := collectNew seen [] candsA
  let rb := collectNewRemote ra.1 ra.2.1 candsB
  (rb.1, rb.2.1, ra.2.2 ++ rb.2.2 ++ notifyAll sendOk rb.2.1)

/-! ## Spec-side predicates and concrete records used to settle the claims -/

/-- The fixed remote-work marker set named by the spec. -/
def REMOTE_MARKERS : List String := ["télétravail", "teletravail", "remote"]

/-- The claim's reading of `is_remote`: every marker is checked against the
location field as well as against the title/summary text. -/
def remoteSpecClaim (j : Job) : Prop :=
  ∃ m ∈ REMOTE_MARKERS,
    pyIn m (pyLower j.location) = true ∨
      pyIn m (pyLower (j.title ++ " " ++ j.summary)) = true

/-- The amended reading of `is_remote`: only "télétravail" is checked against
the location field; all three markers are checked against the title/summary
text. -/
def remoteSpecAmended (j : Job) : Prop :=
  pyIn "télétravail" (pyLower j.location) = true ∨
    ∃ m ∈ REMOTE_MARKERS, pyIn m (pyLower (j.title ++ " " ++ j.summary)) = true

/-- A record whose only remote marker is "remote", in the location field. -/
def c1Job : Job :=
  { title := "data entry clerk", company := "Acme", location := "remote",
    summary := "travail de bureau", link := "https://fr.indeed.com/a",
    contract := none, id := "idc1" }

/-- A record in region whose contract tag is unrecognized and whose summary
contains "contrat" (an accepted keyword per the claim) but none of the four
keywords of the code's summary fallback. -/
def c2Job : Job :=
  { title := "poste", company := "", location := "Rennes",
    summary := "contrat selon profil", link := "https://fr.indeed.com/b",
    contract := some "freelance", id := "idc2" }

/-- A record in region whose contract tag is unrecognized and whose summary
contains the fallback keyword "cdd". -/
def c2KeepJob : Job :=
  { title := "poste", company := "", location := "Rennes",
    summary := "cdd possible", link := "https://fr.indeed.com/c",
    contract := some "freelance", id := "idc2k" }

/-- A remote record outside every configured region city. -/
def c3Job : Job :=
  { title := "saisie de données", company := "", location := "Paris",
    summary := "télétravail total", link := "https://fr.indeed.com/d",
    contract := none, id := "idc3" }

/-- An in-region record with no inferred contract tag. -/
def c4Job : Job :=
  { title := "opérateur de saisie", company := "", location := "Vannes",
    summary := "", link := "https://fr.indeed.com/e",
    contract := none, id := "idc4" }

/-- An in-region record with no contract tag, used to drive one concrete
orchestrator cycle. -/
def c7Job : Job :=
  { title := "opérateur de saisie", company := "", location := "Rennes",
    summary := "", link := "https://fr.indeed.com/f",
    contract := none, id := "idc7" }

/-! ## Theorems -/

/-- **C1**, counterexample. The claim reads `is_remote` as: some marker of
{télétravail, teletravail, remote} occurs in the location field or in the
title/summary text, every marker being checked against both. On `c1Job`,
whose location is exactly "remote", the code's `is_remote` is false (line
129 checks "remote" only against `text`, never against `loc`), so the
claimed equivalence fails. -/
theorem C1_counterexample : isRemote c1Job = false ∧ remoteSpecClaim c1Job :=
  ⟨by decide, ⟨"remote", by decide, Or.inl (by decide)⟩⟩

/-- **C1**, amended: `is_remote` is true iff the location contains
"télétravail", or the title/summary text contains one of "télétravail",
"teletravail", "remote" (case-insensitively); the markers "teletravail"
and "remote" are checked only against the title/summary text, not the
location field. -/
theorem C1_isRemote_markers (j : Job) : isRemote j = true ↔ remoteSpecAmended j := by
  rw [isRemote, remoteSpecAmended, REMOTE_MARKERS]
  simp only [Bool.or_eq_true, List.mem_cons, List.not_mem_nil, or_false,
    exists_eq_or_imp, exists_eq_left]
  tauto

/-- **C2**, counterexample. `c2Job` passes the locality gate, carries the
unrecognized tag "freelance", and its summary contains "contrat" — one of
the accepted contract keywords `CONTRACT_KEYWORDS`, so the claim says it is
kept; the code's summary fallback `("cdi","cdd","intérim","interim")` omits
"contrat", and the filter rejects the record. -/
theorem C2_counterexample :
    passOk BRETAGNE_CITIES false c2Job = true ∧
    c2Job.contract = some "freelance" ∧
    (CONTRACT_KEYWORDS.any fun kw => pyIn (pyUpper kw) (pyUpper "freelance")) = false ∧
    (∃ kw ∈ CONTRACT_KEYWORDS, pyIn (pyLower kw) (pyLower c2Job.summary) = true) ∧
    filter_by_region_and_contract [c2Job] BRETAGNE_CITIES true false = [] := by
  decide

/-- **C2**, amended: in the contract gate, when `accept_contracts` is true,
the record has a non-empty contract tag that fails the accepted-keyword
check, the decision falls to the summary: the record is rejected iff the
summary contains none of the four fallback keywords "cdi", "cdd",
"intérim", "interim" (a proper subset of `CONTRACT_KEYWORDS`, which also
holds "Contrat"), and kept iff it contains one of them. -/
theorem C2_contract_gate (jobs : List Job) (cities : List String) (ar : Bool) (j : Job)
    (hmem : j ∈ jobs) (hloc : passOk cities ar j = true)
    (c : String) (hc : j.contract = some c) (hne : c ≠ "")
    (htag : (CONTRACT_KEYWORDS.any fun kw => pyIn (pyUpper kw) (pyUpper c)) = false) :
    ((SUMMARY_FALLBACK.any fun kw => pyIn (pyLower kw) (pyLower j.summary)) = false →
      j ∉ filter_by_region_and_contract jobs cities true ar) ∧
    ((SUMMARY_FALLBACK.any fun kw => pyIn (pyLower kw) (pyLower j.summary)) = true →
      j ∈ filter_by_region_and_contract jobs cities true ar) := by
  have hgate : contractOk true j =
      SUMMARY_FALLBACK.any fun kw => pyIn (pyLower kw) (pyLower j.summary) := by
    simp [contractOk, hc, hne, htag]
  constructor
  · intro hsum hmemf
    rw [filter_by_region_and_contract, List.mem_filter, jobPasses, Bool.and_eq_true] at hmemf
    rw [hgate, hsum] at hmemf
    exact Bool.false_ne_true hmemf.2.2
  · intro hsum
    rw [filter_by_region_and_contract, List.mem_filter, jobPasses, Bool.and_eq_true]
    exact ⟨hmem, hloc, by rw [hgate, hsum]⟩

/-- Witness for `C2_contract_gate` at `c2KeepJob`, whose summary holds the
fallback keyword "cdd". -/
theorem C2_contract_gate_witness :
    c2KeepJob ∈ filter_by_region_and_contract [c2KeepJob] BRETAGNE_CITIES true false :=
  (C2_contract_gate [c2KeepJob] BRETAGNE_CITIES false c2KeepJob (by decide) (by decide)
    "freelance" rfl (by decide) (by decide)).2 (by decide)

/-- **C3**: a remote record passes the locality gate whenever
`accept_remote` is true, regardless of region, and is in the filter's
output as soon as it also passes the contract gate. -/
theorem C3_remote_admission (cities : List String) (ac : Bool) (jobs : List Job) (j : Job)
    (hr : isRemote j = true) :
    passOk cities true j = true ∧
    (j ∈ jobs → contractOk ac j = true →
      j ∈ filter_by_region_and_contract jobs cities ac true) := by
  have hp : passOk cities true j = true := by rw [passOk, hr]; rfl
  refine ⟨hp, fun hmem hco => ?_⟩
  rw [filter_by_region_and_contract, List.mem_filter, jobPasses, Bool.and_eq_true]
  exact ⟨hmem, hp, hco⟩

/-- Witness for `C3_remote_admission`: `c3Job` is remote, located in
"Paris" (not a configured region city), yet kept with `accept_remote=true`. -/
theorem C3_remote_admission_witness :
    c3Job ∈ filter_by_region_and_contract [c3Job] BRETAGNE_CITIES true true :=
  (C3_remote_admission BRETAGNE_CITIES true [c3Job] c3Job (by decide)).2
    (by decide) (by decide)

/-- **C4**: a record with no inferred contract tag passes the contract gate
for either value of `accept_contracts`, and is in the filter's output as
soon as it passes the locality gate. -/
theorem C4_no_contract_tag (cities : List String) (ac ar : Bool) (jobs : List Job) (j : Job)
    (hc : j.contract = none) :
    contractOk ac j = true ∧
    (j ∈ jobs → passOk cities ar j = true →
      j ∈ filter_by_region_and_contract jobs cities ac ar) := by
  have hco : contractOk ac j = true := by
    rw [contractOk]
    cases ac with
    | false => rfl
    | true => rw [if_pos rfl, hc]
  refine ⟨hco, fun hmem hloc => ?_⟩
  rw [filter_by_region_and_contract, List.mem_filter, jobPasses, Bool.and_eq_true]
  exact ⟨hmem, hloc, hco⟩

/-- Witness for `C4_no_contract_tag` at `c4Job` (no tag, located in
"Vannes"), with `accept_contracts=true`. -/
theorem C4_no_contract_tag_witness :
    c4Job ∈ filter_by_region_and_contract [c4Job] BRETAGNE_CITIES true false :=
  (C4_no_contract_tag BRETAGNE_CITIES true false [c4Job] c4Job rfl).2
    (by decide) (by decide)

/-- **C5**: the record id is a pure, deterministic function of the link:
equal link strings give equal ids, and every record built by the extractor
carries `id = get_job_id_from_link link` for its canonicalized link. -/
theorem C5_id_pure (L1 L2 t c l s link : String) (h : L1 = L2) :
    get_job_id_from_link L1 = get_job_id_from_link L2 ∧
    (mkJobRecord t c l s link).id =
      get_job_id_from_link (mkJobRecord t c l s link).link := by
  subst h
  exact ⟨rfl, rfl⟩

/-- Witness for `C5_id_pure` on a concrete link. -/
theorem C5_id_pure_witness :
    get_job_id_from_link "https://fr.indeed.com/a" =
      get_job_id_from_link "https://fr.indeed.com/a" ∧
    (mkJobRecord "t" "co" "Rennes" "s" "https://fr.indeed.com/a").id =
      get_job_id_from_link
        (mkJobRecord "t" "co" "Rennes" "s" "https://fr.indeed.com/a").link :=
  C5_id_pure _ _ _ _ _ _ _ rfl

/-- **C6**: the eligibility filter is idempotent — applying it to its own
output with the same region list and policy flags returns that output
unchanged, same records in the same order. -/
theorem C6_filter_idempotent (jobs : List Job) (cities : List String) (ac ar : Bool) :
    filter_by_region_and_contract (filter_by_region_and_contract jobs cities ac ar)
        cities ac ar =
      filter_by_region_and_contract jobs cities ac ar := by
  rw [filter_by_region_and_contract, filter_by_region_and_contract,
    List.filter_filter]
  simp

/-- **C8**: `load_seen` degrades to the empty set when the file is absent or
any read/deserialization step raises, and otherwise returns exactly the
set of identifiers stored in the file. -/
theorem C8_load_seen_degrades :
    load_seen SeenFile.absent = ∅ ∧ load_seen SeenFile.unreadable = ∅ ∧
    ∀ (ids : List String) (x : String),
      x ∈ load_seen (SeenFile.content ids) ↔ x ∈ ids := by
  refine ⟨rfl, rfl, fun ids x => ?_⟩
  rw [load_seen]
  exact List.mem_toFinset

/-- **C9**, counterexample. The status 204 is a 200-class response, yet
`send_telegram_message` reports failure: line 153 compares the status with
200 exactly, not with the 2xx class. -/
theorem C9_counterexample :
    200 ≤ 204 ∧ 204 < 300 ∧ send_telegram_message (some 204) = false := by
  decide

/-- **C9**, amended: `send_telegram_message` reports success iff the
response status is exactly 200; every other status — other 2xx included —
and every transport exception yields `false` (the exception is caught,
never propagated). -/
theorem C9_send_success_iff (r : Option Nat) :
    send_telegram_message r = true ↔ r = some 200 := by
  cases r with
  | none => simp [send_telegram_message]
  | some s => simp [send_telegram_message]

/-! ### Lemmas on the collect/notify phases -/

theorem collectNew_seen_mono (l : List Job) : ∀ (seen : List String) (allNew : List Job)
    (x : String), x ∈ seen → x ∈ (collectNew seen allNew l).1 := by
  induction l with
  | nil => intro seen allNew x hx; exact hx
  | cons a rest ih =>
    intro seen allNew x hx
    rw [collectNew]
    by_cases h : seen.contains a.id = true
    · rw [if_pos h]; exact ih seen allNew x hx
    · rw [if_neg h]
      exact ih (a.id :: seen) (allNew ++ [a]) x (List.mem_cons_of_mem _ hx)

theorem collectNew_ids (l : List Job) : ∀ (seen : List String) (allNew : List Job),
    (∀ j ∈ allNew, j.id ∈ seen) →
    ∀ j ∈ (collectNew seen allNew l).2.1, j.id ∈ (collectNew seen allNew l).1 := by
  induction l with
  | nil => intro seen allNew hinv j hj; exact hinv j hj
  | cons a rest ih =>
    intro seen allNew hinv j hj
    rw [collectNew] at hj ⊢
    by_cases h : seen.contains a.id = true
    · rw [if_pos h] at hj ⊢; exact ih seen allNew hinv j hj
    · rw [if_neg h] at hj ⊢
      refine ih (a.id :: seen) (allNew ++ [a]) ?_ j hj
      intro x hx
      rcases List.mem_append.mp hx with hx | hx
      · exact List.mem_cons_of_mem _ (hinv x hx)
      · rw [List.mem_singleton] at hx; subst hx; exact List.mem_cons_self _ _

theorem collectNew_marks (l : List Job) : ∀ (seen : List String) (allNew : List Job)
    (j : Job), j ∈ (collectNew seen allNew l).2.1 →
    j ∈ allNew ∨ Event.markSeen j.id ∈ (collectNew seen allNew l).2.2 := by
  induction l with
  | nil => intro seen allNew j hj; exact Or.inl hj
  | cons a rest ih =>
    intro seen allNew j hj
    rw [collectNew] at hj ⊢
    by_cases h : seen.contains a.id = true
    · rw [if_pos h] at hj ⊢; exact ih seen allNew j hj
    · rw [if_neg h] at hj ⊢
      have hj' : j ∈ (collectNew (a.id :: seen) (allNew ++ [a]) rest).2.1 := hj
      rcases ih (a.id :: seen) (allNew ++ [a]) j hj' with hcase | hcase
      · rcases List.mem_append.mp hcase with hx | hx
        · exact Or.inl hx
        · rw [List.mem_singleton] at hx; subst hx
          exact Or.inr (List.mem_cons_self _ _)
      · exact Or.inr (List.mem_cons_of_mem _ hcase)

theorem collectNew_events_mark (l : List Job) : ∀ (seen : List String) (allNew : List Job)
    (e : Event), e ∈ (collectNew seen allNew l).2.2 → e.isMark = true := by
  induction l with
  | nil => intro seen allNew e he; exact absurd he (List.not_mem_nil e)
  | cons a rest ih =>
    intro seen allNew e he
    rw [collectNew] at he
    by_cases h : seen.contains a.id = true
    · rw [if_pos h] at he; exact ih _ _ _ he
    · rw [if_neg h] at he
      have he' : e ∈ Event.markSeen a.id ::
          (collectNew (a.id :: seen) (allNew ++ [a]) rest).2.2 := he
      rcases List.mem_cons.mp he' with he2 | he2
      · subst he2; rfl
      · exact ih _ _ _ he2

theorem collectNewRemote_ids (l : List Job) : ∀ (seen : List String) (allNew : List Job),
    (∀ j ∈ allNew, j.id ∈ seen) →
    ∀ j ∈ (collectNewRemote seen allNew l).2.1,
      j.id ∈ (collectNewRemote seen allNew l).1 := by
  induction l with
  | nil => intro seen allNew hinv j hj; exact hinv j hj
  | cons a rest ih =>
    intro seen allNew hinv j hj
    rw [collectNewRemote] at hj ⊢
    by_cases hr : remoteRecheck a = true
    · rw [if_pos hr] at hj ⊢
      by_cases h : seen.contains a.id = true
      · rw [if_pos h] at hj ⊢; exact ih seen allNew hinv j hj
      · rw [if_neg h] at hj ⊢
        refine ih (a.id :: seen) (allNew ++ [a]) ?_ j hj
        intro x hx
        rcases List.mem_append.mp hx with hx | hx
        · exact List.mem_cons_of_mem _ (hinv x hx)
        · rw [List.mem_singleton] at hx; subst hx; exact List.mem_cons_self _ _
    · rw [if_neg hr] at hj ⊢; exact ih seen allNew hinv j hj

theorem collectNewRemote_marks (l : List Job) : ∀ (seen : List String) (allNew : List Job)
    (j : Job), j ∈ (collectNewRemote seen allNew l).2.1 →
    j ∈ allNew ∨ Event.markSeen j.id ∈ (collectNewRemote seen allNew l).2.2 := by
  induction l with
  | nil => intro seen allNew j hj; exact Or.inl hj
  | cons a rest ih =>
    intro seen allNew j hj
    rw [collectNewRemote] at hj ⊢
    by_cases hr : remoteRecheck a = true
    · rw [if_pos hr] at hj ⊢
      by_cases h : seen.contains a.id = true
      · rw [if_pos h] at hj ⊢; exact ih seen allNew j hj
      · rw [if_neg h] at hj ⊢
        have hj' : j ∈ (collectNewRemote (a.id :: seen) (allNew ++ [a]) rest).2.1 := hj
        rcases ih (a.id :: seen) (allNew ++ [a]) j hj' with hcase | hcase
        · rcases List.mem_append.mp hcase with hx | hx
          · exact Or.inl hx
          · rw [List.mem_singleton] at hx; subst hx
            exact Or.inr (List.mem_cons_self _ _)
        · exact Or.inr (List.mem_cons_of_mem _ hcase)
    · rw [if_neg hr] at hj ⊢; exact ih seen allNew j hj

theorem collectNewRemote_events_mark (l : List Job) :
    ∀ (seen : List String) (allNew : List Job) (e : Event),
      e ∈ (collectNewRemote seen allNew l).2.2 → e.isMark = true := by
  induction l with
  | nil => intro seen allNew e he; exact absurd he (List.not_mem_nil e)
  | cons a rest ih =>
    intro seen allNew e he
    rw [collectNewRemote] at he
    by_cases hr : remoteRecheck a = true
    · rw [if_pos hr] at he
      by_cases h : seen.contains a.id = true
      · rw [if_pos h] at he; exact ih _ _ _ he
      · rw [if_neg h] at he
        have he' : e ∈ Event.markSeen a.id ::
            (collectNewRemote (a.id :: seen) (allNew ++ [a]) rest).2.2 := he
        rcases List.mem_cons.mp he' with he2 | he2
        · subst he2; rfl
        · exact ih _ _ _ he2
    · rw [if_neg hr] at he; exact ih _ _ _ he

theorem notifyAll_mem (sendOk : Job → Bool) (l : List Job) :
    ∀ j ∈ l, Event.notifyAttempt j.id (sendOk j) ∈ notifyAll sendOk l := by
  induction l with
  | nil => intro j hj; exact absurd hj (List.not_mem_nil j)
  | cons a rest ih =>
    intro j hj
    rw [notifyAll]
    rcases List.mem_cons.mp hj with h | h
    · subst h; exact List.mem_cons_self _ _
    · exact List.mem_cons_of_mem _ (ih j h)

theorem notifyAll_length (sendOk : Job → Bool) (l : List Job) :
    (notifyAll sendOk l).length = l.length := by
  induction l with
  | nil => rfl
  | cons a rest ih => rw [notifyAll, List.length_cons, List.length_cons, ih]

/-- **C7**: within one cycle, every collected record's id is in the final
seen set (notification results cannot remove it, since `seen` is not
touched after collection); the event trace is a block of mark-seen events
followed by the notification attempts, with every notified record's
mark-seen event in the earlier block; every collected record gets exactly
one notification attempt, whatever the delivery outcomes are. -/
theorem C7_mark_seen_before_notify (seen : List String) (fetchedA fetchedB : List Job)
    (cities : List String) (sendOk : Job → Bool) :
    (∀ j ∈ (runCycle seen fetchedA fetchedB cities sendOk).2.1,
        j.id ∈ (runCycle seen fetchedA fetchedB cities sendOk).1) ∧
    (∃ pre, (runCycle seen fetchedA fetchedB cities sendOk).2.2 =
          pre ++ notifyAll sendOk (runCycle seen fetchedA fetchedB cities sendOk).2.1 ∧
        (∀ e ∈ pre, e.isMark = true) ∧
        ∀ j ∈ (runCycle seen fetchedA fetchedB cities sendOk).2.1,
          Event.markSeen j.id ∈ pre) ∧
    (∀ j ∈ (runCycle seen fetchedA fetchedB cities sendOk).2.1,
        Event.notifyAttempt j.id (sendOk j) ∈
          notifyAll sendOk (runCycle seen fetchedA fetchedB cities sendOk).2.1) ∧
    (notifyAll sendOk (runCycle seen fetchedA fetchedB cities sendOk).2.1).length =
      (runCycle seen fetchedA fetchedB cities sendOk).2.1.length := by
  have hids : ∀ j ∈ (runCycle seen fetchedA fetchedB cities sendOk).2.1,
      j.id ∈ (runCycle seen fetchedA fetchedB cities sendOk).1 := by
    intro j hj
    refine collectNewRemote_ids _ _ _ ?_ j hj
    exact collectNew_ids _ seen [] (fun x hx => absurd hx (List.not_mem_nil x))
  refine ⟨hids, ?_, ?_, notifyAll_length sendOk _⟩
  · set candsA := filter_by_region_and_contract fetchedA cities true false with hA
    set candsB := filter_by_region_and_contract fetchedB cities true true with hB
    set ra := collectNew seen [] candsA with hra
    set rb := collectNewRemote ra.1 ra.2.1 candsB with hrb
    refine ⟨ra.2.2 ++ rb.2.2, rfl, ?_, ?_⟩
    · intro e he
      rcases List.mem_append.mp he with he | he
      · exact collectNew_events_mark _ _ _ _ he
      · exact collectNewRemote_events_mark _ _ _ _ he
    · intro j hj
      have hj' : j ∈ rb.2.1 := hj
      rcases collectNewRemote_marks _ _ _ _ hj' with hcase | hcase
      · rcases collectNew_marks _ _ _ _ hcase with hnil | hmark
        · exact absurd hnil (List.not_mem_nil j)
        · exact List.mem_append_left _ hmark
      · exact List.mem_append_right _ hcase
  · intro j hj
    exact notifyAll_mem sendOk _ j hj

/-- Witness for `C7_mark_seen_before_notify`: one concrete cycle collecting
`c7Job`, with every delivery failing; the record's id is nevertheless in
the final seen set. -/
theorem C7_mark_seen_before_notify_witness :
    c7Job.id ∈ (runCycle [] [c7Job] [] BRETAGNE_CITIES (fun _ => false)).1 :=
  (C7_mark_seen_before_notify [] [c7Job] [] BRETAGNE_CITIES (fun _ => false)).1
    c7Job (by decide)

/-! ### First-match characterization of `List.find?`, and substring reflexivity -/

theorem find_first_split {α : Type} (p : α → Bool) :
    ∀ (l : List α) (a : α), l.find? p = some a →
      ∃ l1 l2, l = l1 ++ a :: l2 ∧ (∀ x ∈ l1, p x = false) ∧ p a = true := by
  intro l
  induction l with
  | nil => intro a h; cases h
  | cons x xs ih =>
    intro a h
    by_cases hp : p x = true
    · rw [List.find?_cons_of_pos _ hp] at h
      injection h with h; subst h
      exact ⟨[], xs, rfl, fun y hy => absurd hy (List.not_mem_nil y), hp⟩
    · rw [List.find?_cons_of_neg _ hp] at h
      obtain ⟨l1, l2, heq, hall, hpa⟩ := ih a h
      refine ⟨x :: l1, l2, by rw [heq, List.cons_append], ?_, hpa⟩
      intro y hy
      rcases List.mem_cons.mp hy with hy | hy
      · subst hy; simp only [Bool.not_eq_true] at hp; exact hp
      · exact hall y hy

theorem pyIn_refl (s : String) : pyIn s s = true :=
  decide_eq_true (List.infix_refl s.toList)

/-- **C10**: a record built by the extractor carries either no contract tag
or the first keyword of `CONTRACT_KEYWORDS`, in list order, whose
upper-cased form occurs in the upper-cased concatenated
title/company/location/summary text; such a tag always satisfies the
filter's accepted-keyword check, so with `accept_contracts=true` the
contract gate's rejection branch is unreachable on extractor output and
the whole decision reduces to the locality gate. -/
theorem C10_extractor_contract (t c l s link : String) (cities : List String) (ar : Bool) :
    ((mkJobRecord t c l s link).contract = none ∨
      ∃ kw ∈ CONTRACT_KEYWORDS, (mkJobRecord t c l s link).contract = some kw) ∧
    (∀ kw, (mkJobRecord t c l s link).contract = some kw →
      pyIn (pyUpper kw) (pyUpper (String.intercalate " " [t, c, l, s])) = true ∧
      ∃ l1 l2, CONTRACT_KEYWORDS = l1 ++ kw :: l2 ∧
        ∀ kw' ∈ l1,
          pyIn (pyUpper kw') (pyUpper (String.intercalate " " [t, c, l, s])) = false) ∧
    contractOk true (mkJobRecord t c l s link) = true ∧
    jobPasses cities true ar (mkJobRecord t c l s link) =
      passOk cities ar (mkJobRecord t c l s link) := by
  have hcon : (mkJobRecord t c l s link).contract =
      CONTRACT_KEYWORDS.find? (fun kw =>
        pyIn (pyUpper kw) (pyUpper (String.intercalate " " [t, c, l, s]))) := rfl
  rcases hfind : CONTRACT_KEYWORDS.find? (fun kw =>
      pyIn (pyUpper kw) (pyUpper (String.intercalate " " [t, c, l, s]))) with _ | kw
  · have hnone : (mkJobRecord t c l s link).contract = none := hcon.trans hfind
    have hco : contractOk true (mkJobRecord t c l s link) = true := by
      rw [contractOk, hnone]
      rfl
    refine ⟨Or.inl hnone, ?_, hco, ?_⟩
    · intro kw hkw
      rw [hnone] at hkw
      cases hkw
    · rw [jobPasses, hco, Bool.and_true]
  · have hsome : (mkJobRecord t c l s link).contract = some kw := hcon.trans hfind
    have hmem : kw ∈ CONTRACT_KEYWORDS := List.mem_of_find?_eq_some hfind
    obtain ⟨l1, l2, heq, hall, hpkw⟩ := find_first_split _ _ _ hfind
    have hne : kw ≠ "" := by
      have hall' : ∀ x ∈ CONTRACT_KEYWORDS, x ≠ "" := by decide
      exact hall' kw hmem
    have hany : (CONTRACT_KEYWORDS.any fun kw' =>
        pyIn (pyUpper kw') (pyUpper kw)) = true :=
      List.any_eq_true.mpr ⟨kw, hmem, pyIn_refl (pyUpper kw)⟩
    have hco : contractOk true (mkJobRecord t c l s link) = true := by
      rw [contractOk, hsome]
      simp [hne, hany]
    refine ⟨Or.inr ⟨kw, hmem, hsome⟩, ?_, hco, ?_⟩
    · intro kw' hkw'
      rw [hsome] at hkw'
      injection hkw' with hkw'; subst hkw'
      exact ⟨hpkw, l1, l2, heq, fun x hx => hall x hx⟩
    · rw [jobPasses, hco, Bool.and_true]

/-- Witness for `C10_extractor_contract`, exercising a record whose text
holds the keyword "CDD". -/
theorem C10_extractor_contract_witness :
    pyIn (pyUpper "CDD")
      (pyUpper (String.intercalate " " ["poste CDD", "", "Rennes", ""])) = true :=
  ((C10_extractor_contract "poste CDD" "" "Rennes" "" "https://fr.indeed.com/g"
    BRETAGNE_CITIES false).2.1 "CDD" (by decide)).1

end JobBot
